import Mathlib

/-!
# Verification of the BlackJack client/server repository

Shallow embedding of the repository's Python sources
(`blackjack_protocol.py`, `blackjack_server.py`, `blackjack_client.py`)
and proofs about them.

Modelling conventions:
* A byte string (Python `bytes`) is a `List Nat` whose elements are the
  byte values; encoders happen to produce elements `< 256` by construction.
* A Python `str` that is only ever moved through `encode('utf-8')` /
  `decode('utf-8')` is modelled by its UTF-8 byte string directly, so the
  codec works on `List Nat` at both ends (the `errors='ignore'` decode is
  the identity on the valid UTF-8 byte strings all claims quantify over).
* `struct.pack` raises on out-of-range fields, so the `create_*` functions
  that pack ranged fields return `Option (List Nat)` with the same range
  guard; the in-range branch produces the exact big-endian bytes.
* A card is a pair `(rank, suit)`; a hand is a `List Card`.
* `random.shuffle` is modelled by quantifying over an arbitrary permutation
  of the freshly rebuilt deck.
-/

/-- `(rank, suit)` pairs, exactly as the Python tuples. -/
abbrev Card := Nat × Nat

-- ============================================================================
-- Protocol constants (blackjack_protocol.py)
-- ============================================================================

def MAGIC_COOKIE : Nat := 0xabcddcba

def MSG_TYPE_OFFER : Nat := 0x2

def MSG_TYPE_REQUEST : Nat := 0x3

def MSG_TYPE_PAYLOAD : Nat := 0x4

def RESULT_NOT_OVER : Nat := 0x0

def RESULT_TIE : Nat := 0x1

def RESULT_LOSS : Nat := 0x2

def RESULT_WIN : Nat := 0x3

/-- The UTF-8 bytes of the string constant `DECISION_HIT = "Hittt"`. -/
def DECISION_HIT : List Nat := [72, 105, 116, 116, 116]

/-- The UTF-8 bytes of the string constant `DECISION_STAND = "Stand"`. -/
def DECISION_STAND : List Nat := [83, 116, 97, 110, 100]

def NAME_SIZE : Nat := 32

-- ============================================================================
-- Card values and hand values
-- ============================================================================

/-- `get_card_value` from blackjack_protocol.py: Ace (rank 1) is 11,
J/Q/K (rank >= 11) are 10, every other rank is its face value. -/
def get_card_value (rank : Nat) : Nat :=
  if rank = 1 then 11
  else if 11 ≤ rank then 10
  else rank

namespace BlackjackGame

/-- `BlackjackGame.calculate_hand_value` from blackjack_server.py: the plain
sum of the per-card values.  Note that the server performs NO ace
adjustment whatsoever. -/
def calculate_hand_value (hand : List Card) : Nat :=
  (hand.map fun c => get_card_value c.1).sum

end BlackjackGame

/-- The ace-demotion loop of `BlackjackClient.calculate_hand_value`
(`while total > 21 and num_aces > 0: total -= 10; num_aces -= 1`),
written as recursion on the ace count. -/
def aceAdjust (total : Nat) : Nat → Nat
  | 0 => total
  | aces + 1 => if 21 < total then aceAdjust (total - 10) aces else total

namespace BlackjackClient

/-- `BlackjackClient.calculate_hand_value` from blackjack_client.py: the sum
of per-card values, then while the total exceeds 21 and an Ace is still
counted as 11, 10 is subtracted per such Ace. -/
def calculate_hand_value (hand : List Card) : Nat :=
  aceAdjust ((hand.map fun c => get_card_value c.1).sum)
    ((hand.filter fun c => c.1 = 1).length)

end BlackjackClient

-- ============================================================================
-- Deck (blackjack_server.py)
-- ============================================================================

/-- The 52-card list `Deck.reset` builds before shuffling:
`for suit in range(4): for rank in range(1, 14): append (rank, suit)`. -/
def fullDeck : List Card :=
  ((List.range 4).map fun suit => (List.range 13).map fun r => (r + 1, suit)).flatten

namespace Deck

/-- `Deck.draw`: if the card list is empty it is first re-populated by
`reset` (whose shuffled output is the `resetCards` parameter), then the
LAST card is popped (`list.pop()`); the `None` fallback fires only if the
list is still empty after that. -/
def draw (cards resetCards : List Card) : Option Card × List Card :=
  let cards := if cards.isEmpty then resetCards else cards
  match cards.getLast? with
  | none => (none, cards)
  | some c => (some c, cards.dropLast)

/-- `n` successive `draw` calls (each implicit reset yielding `resetCards`),
returning the drawn cards in order together with the final card list. -/
def drawN (resetCards : List Card) : Nat → List Card → List (Option Card) × List Card
  | 0, s => ([], s)
  | n + 1, s =>
    let (c, s') := draw s resetCards
    let (cs, s'') := drawN resetCards n s'
    (c :: cs, s'')

end Deck

-- ============================================================================
-- Wire codec (blackjack_protocol.py)
-- ============================================================================

/-- The big-endian bytes of `struct.pack('!I', MAGIC_COOKIE)`. -/
def MAGIC_BYTES : List Nat := [0xab, 0xcd, 0xdc, 0xba]

/-- Reassemble a big-endian `uint16` from two bytes (`struct.unpack('!H')`). -/
def readU16 (a b : Nat) : Nat := a * 256 + b

/-- Reassemble a big-endian `uint32` from four bytes (`struct.unpack('!I')`). -/
def readU32 (a b c d : Nat) : Nat := ((a * 256 + b) * 256 + c) * 256 + d

/-- The two big-endian bytes of an in-range `uint16` (`struct.pack('!H')`). -/
def packU16 (n : Nat) : List Nat := [n / 256, n % 256]

/-- `pad_name`: truncate the encoded name to `NAME_SIZE` bytes, or pad it
with zero bytes up to `NAME_SIZE`. -/
def pad_name (name : List Nat) : List Nat :=
  if NAME_SIZE < name.length then name.take NAME_SIZE
  else name ++ List.replicate (NAME_SIZE - name.length) 0

/-- `bytes.rstrip(b'\x00')`: remove exactly the trailing zero bytes. -/
def rstripZeros (l : List Nat) : List Nat :=
  (l.reverse.dropWhile fun b => b = 0).reverse

/-- `unpad_name`: strip the trailing zero padding (the subsequent
`decode('utf-8', errors='ignore')` is the identity on the byte strings we
model names by). -/
def unpad_name (name_bytes : List Nat) : List Nat :=
  rstripZeros name_bytes

/-- `create_offer_message`: `struct.pack('!IBH', MAGIC_COOKIE,
MSG_TYPE_OFFER, tcp_port) + pad_name(server_name)`; `struct.pack` raises
unless the port fits in a `uint16`, hence the guard. -/
def create_offer_message (tcp_port : Nat) (server_name : List Nat) :
    Option (List Nat) :=
  if tcp_port < 65536 then
    some (MAGIC_BYTES ++ [MSG_TYPE_OFFER] ++ packU16 tcp_port ++ pad_name server_name)
  else none

/-- `parse_offer_message`: length check, magic/type check, then the port
from bytes 5-6 and the unpadded name from bytes 7-38. -/
def parse_offer_message (data : List Nat) : Option (Nat × List Nat) :=
  if data.length < 39 then none
  else if readU32 (data.getD 0 0) (data.getD 1 0) (data.getD 2 0) (data.getD 3 0)
          = MAGIC_COOKIE ∧ data.getD 4 0 = MSG_TYPE_OFFER then
    some (readU16 (data.getD 5 0) (data.getD 6 0), unpad_name ((data.drop 7).take 32))
  else none

/-- `create_request_message`: `struct.pack('!IBB', MAGIC_COOKIE,
MSG_TYPE_REQUEST, num_rounds) + pad_name(client_name)`; the round count
must fit in a `uint8`. -/
def create_request_message (num_rounds : Nat) (client_name : List Nat) :
    Option (List Nat) :=
  if num_rounds < 256 then
    some (MAGIC_BYTES ++ [MSG_TYPE_REQUEST] ++ [num_rounds] ++ pad_name client_name)
  else none

/-- `parse_request_message`: length check, magic/type check, then the round
count from byte 5 and the unpadded name from bytes 6-37. -/
def parse_request_message (data : List Nat) : Option (Nat × List Nat) :=
  if data.length < 38 then none
  else if readU32 (data.getD 0 0) (data.getD 1 0) (data.getD 2 0) (data.getD 3 0)
          = MAGIC_COOKIE ∧ data.getD 4 0 = MSG_TYPE_REQUEST then
    some (data.getD 5 0, unpad_name ((data.drop 6).take 32))
  else none

/-- `create_client_payload`: magic and type, then
`decision.encode('utf-8')[:5].ljust(5, b'\x00')`. -/
def create_client_payload (decision : List Nat) : List Nat :=
  MAGIC_BYTES ++ [MSG_TYPE_PAYLOAD] ++
    (decision.take 5 ++ List.replicate (5 - (decision.take 5).length) 0)

/-- `parse_client_payload`: length check, magic/type check, then
`data[5:10].rstrip(b'\x00')` decoded. -/
def parse_client_payload (data : List Nat) : Option (List Nat) :=
  if data.length < 10 then none
  else if readU32 (data.getD 0 0) (data.getD 1 0) (data.getD 2 0) (data.getD 3 0)
          = MAGIC_COOKIE ∧ data.getD 4 0 = MSG_TYPE_PAYLOAD then
    some (rstripZeros ((data.drop 5).take 5))
  else none

/-- `create_server_payload`: `struct.pack('!IBBHB', MAGIC_COOKIE,
MSG_TYPE_PAYLOAD, result, rank, suit)`; each field must fit its width. -/
def create_server_payload (result rank suit : Nat) : Option (List Nat) :=
  if result < 256 ∧ rank < 65536 ∧ suit < 256 then
    some (MAGIC_BYTES ++ [MSG_TYPE_PAYLOAD] ++ [result] ++ packU16 rank ++ [suit])
  else none

/-- `parse_server_payload`: length check, magic/type check, then the
result byte, the 2-byte rank and the suit byte. -/
def parse_server_payload (data : List Nat) : Option (Nat × Nat × Nat) :=
  if data.length < 9 then none
  else if readU32 (data.getD 0 0) (data.getD 1 0) (data.getD 2 0) (data.getD 3 0)
          = MAGIC_COOKIE ∧ data.getD 4 0 = MSG_TYPE_PAYLOAD then
    some (data.getD 5 0, readU16 (data.getD 6 0) (data.getD 7 0), data.getD 8 0)
  else none

-- ============================================================================
-- Round engine (BlackjackGame.play_round, blackjack_server.py)
-- ============================================================================

/-- One ServerCard payload as the server sends it:
`create_server_payload(result, rank, suit)`. -/
structure SMsg where
  result : Nat
  rank : Nat
  suit : Nat
deriving DecidableEq, Repr

/-- How the player's turn (the `while True` loop of `play_round`) ended. -/
inductive PlayerPhase where
  /-- The player sent `Stand`; the final player hand is carried. -/
  | stood (hand : List Card)
  /-- A hit pushed the player's computed value over 21. -/
  | busted (hand : List Card)
  /-- `receive_decision` returned `None` (closed socket, timeout or error). -/
  | recvFail
  /-- Modelling artifact: the card stream ran out mid-hit (the real deck
  re-shuffles on exhaustion and never does). -/
  | deckEmpty
deriving DecidableEq, Repr

/-- `play_round`'s player-turn loop.  The deck is abstracted as the stream
of cards successive `Deck.draw` calls will return.  The decision stream
models successive `receive_decision` results; an exhausted stream behaves
like the timeout that `receive_decision` turns into `None`.  A decision
that is neither `Stand` nor `Hittt` is logged and the loop just repeats.
Returns the ServerCard messages sent during the turn, the end phase, and
the unconsumed card stream. -/
def playerTurn : List Card → List (Option (List Nat)) → List Card →
    List SMsg × PlayerPhase × List Card
  | _, [], deck => ([], .recvFail, deck)
  | _, none :: _, deck => ([], .recvFail, deck)
  | hand, some d :: rest, deck =>
    if d = DECISION_STAND then ([], .stood hand, deck)
    else if d = DECISION_HIT then
      match deck with
      | [] => ([], .deckEmpty, [])
      | c :: deck' =>
        let hand' := hand ++ [c]
        if 21 < BlackjackGame.calculate_hand_value hand' then
          ([⟨RESULT_NOT_OVER, c.1, c.2⟩, ⟨RESULT_LOSS, 0, 0⟩], .busted hand', deck')
        else
          let (ms, ph, dk) := playerTurn hand' rest deck'
          (⟨RESULT_NOT_OVER, c.1, c.2⟩ :: ms, ph, dk)
    else playerTurn hand rest deck

/-- `play_round`'s dealer loop: `while dealer_value < 17: draw, append,
send as ServerCard(result=not_over)`.  Returns the final dealer hand, the
messages sent, and the unconsumed card stream. -/
def dealerTurn : List Card → List Card → List Card × List SMsg × List Card
  | hand, [] => (hand, [], [])
  | hand, c :: deck' =>
    if BlackjackGame.calculate_hand_value hand < 17 then
      let (h, ms, dk) := dealerTurn (hand ++ [c]) deck'
      (h, ⟨RESULT_NOT_OVER, c.1, c.2⟩ :: ms, dk)
    else (hand, [], c :: deck')

/-- The value `play_round` returns, plus a modelling artifact for a card
stream too short to finish the round (impossible with the real
auto-resetting deck). -/
inductive RoundResult where
  | win
  | loss
  | tie
  | incomplete
deriving DecidableEq, Repr

/-- `BlackjackGame.play_round`: deal two cards to the player (each sent),
two to the dealer (only the first sent), run the player's turn, and if the
player stood, reveal the dealer's second card, run the dealer loop and
compare the two `calculate_hand_value` totals.  Returns the round result
and every ServerCard sent, in order. -/
def play_round (deck : List Card) (decisions : List (Option (List Nat))) :
    RoundResult × List SMsg :=
  match deck with
  | p1 :: p2 :: d1 :: d2 :: deck0 =>
    let dealMsgs : List SMsg :=
      [⟨RESULT_NOT_OVER, p1.1, p1.2⟩, ⟨RESULT_NOT_OVER, p2.1, p2.2⟩,
       ⟨RESULT_NOT_OVER, d1.1, d1.2⟩]
    let (pmsgs, phase, deck1) := playerTurn [p1, p2] decisions deck0
    match phase with
    | .recvFail => (.loss, dealMsgs ++ pmsgs)
    | .deckEmpty => (.incomplete, dealMsgs ++ pmsgs)
    | .busted _ => (.loss, dealMsgs ++ pmsgs)
    | .stood ph =>
      let revealMsg : SMsg := ⟨RESULT_NOT_OVER, d2.1, d2.2⟩
      let (dh, dmsgs, _) := dealerTurn [d1, d2] deck1
      if BlackjackGame.calculate_hand_value dh < 17 then
        (.incomplete, dealMsgs ++ pmsgs ++ revealMsg :: dmsgs)
      else
        let pv := BlackjackGame.calculate_hand_value ph
        let dv := BlackjackGame.calculate_hand_value dh
        if 21 < dv then
          (.win, dealMsgs ++ pmsgs ++ revealMsg :: dmsgs ++ [⟨RESULT_WIN, 0, 0⟩])
        else if dv < pv then
          (.win, dealMsgs ++ pmsgs ++ revealMsg :: dmsgs ++ [⟨RESULT_WIN, 0, 0⟩])
        else if pv < dv then
          (.loss, dealMsgs ++ pmsgs ++ revealMsg :: dmsgs ++ [⟨RESULT_LOSS, 0, 0⟩])
        else
          (.tie, dealMsgs ++ pmsgs ++ revealMsg :: dmsgs ++ [⟨RESULT_TIE, 0, 0⟩])
  | _ => (.incomplete, [])

/-- The spec's resolution rule (§4.3 RESOLVED), stated from the spec's own
words for comparison with what `play_round` computes: dealer over 21 means
the player wins; otherwise the larger value wins and equality ties. -/
def specOutcome (playerValue dealerValue : Nat) : RoundResult :=
  if 21 < dealerValue then .win
  else if dealerValue < playerValue then .win
  else if playerValue < dealerValue then .loss
  else .tie

/-- The result code the spec's resolution rule puts in the terminal
ServerCard. -/
def specResultCode (playerValue dealerValue : Nat) : Nat :=
  if 21 < dealerValue then RESULT_WIN
  else if dealerValue < playerValue then RESULT_WIN
  else if playerValue < dealerValue then RESULT_LOSS
  else RESULT_TIE

-- ============================================================================
-- Claims C1-C5: hand values and the round engine
-- ============================================================================

/-- C1.  The claim says both hand-value functions compute the ace-adjusted
value (sum with Ace=11, then demote aces while over 21).  The client's
does, but the server's `BlackjackGame.calculate_hand_value` performs no ace
adjustment at all: on the hand Ace-Ace it returns 22 where the claimed
value is 12 (the value the client computes), so the two sides of the same
game disagree and the server busts hands the rules value at 12. -/
theorem server_value_ignores_aces :
    BlackjackGame.calculate_hand_value [(1, 0), (1, 1)] = 22 ∧
    BlackjackClient.calculate_hand_value [(1, 0), (1, 1)] = 12 ∧
    aceAdjust 22 2 = 12 := by decide

/-- C2.  The claim says a 2-card player hand worth exactly 21 makes the
server resolve the round immediately as a win with one
ServerCard(rank=0,result=win) and no dealer play.  The server has no such
check: dealt A-spades, 10-diamonds (value 21 by both value functions), it
still waits for a decision — if none arrives the round ends as a loss with
no terminal message at all, and after a Stand the dealer plays out its
hand before any result is sent. -/
theorem no_blackjack_shortcut :
    BlackjackGame.calculate_hand_value [(1, 3), (10, 1)] = 21 ∧
    BlackjackClient.calculate_hand_value [(1, 3), (10, 1)] = 21 ∧
    play_round [(1, 3), (10, 1), (5, 0), (5, 1)] []
      = (.loss, [⟨0, 1, 3⟩, ⟨0, 10, 1⟩, ⟨0, 5, 0⟩]) ∧
    play_round [(1, 3), (10, 1), (5, 0), (5, 1), (10, 2)] [some DECISION_STAND]
      = (.win, [⟨0, 1, 3⟩, ⟨0, 10, 1⟩, ⟨0, 5, 0⟩, ⟨0, 5, 1⟩, ⟨0, 10, 2⟩, ⟨3, 0, 0⟩]) := by
  decide

/-- C3, counterexample to the claim as stated.  A failed receive does NOT
abort without an outcome: the round returns loss (first conjunct, decision
stream `[none]`), and an invalid decision is NOT a fatal round error: the
server skips it and keeps playing the round to completion (second
conjunct, garbage decision followed by Stand ends in a tie). -/
theorem recv_none_scores_loss :
    play_round [(10, 0), (9, 1), (5, 0), (5, 1)] [none]
      = (.loss, [⟨0, 10, 0⟩, ⟨0, 9, 1⟩, ⟨0, 5, 0⟩]) ∧
    play_round [(10, 0), (9, 1), (10, 3), (9, 2)]
        [some [88, 88, 88, 88, 88], some DECISION_STAND]
      = (.tie, [⟨0, 10, 0⟩, ⟨0, 9, 1⟩, ⟨0, 10, 3⟩, ⟨0, 9, 2⟩, ⟨1, 0, 0⟩]) := by decide

/-- C3 as amended.  During the player's turn: a `None` from
`receive_decision` ends the round at once with outcome loss and no further
message (in particular no terminal ServerCard), while a decision that is
neither `Hittt` nor `Stand` is merely skipped — the loop state is exactly
as if that decision had never arrived. -/
theorem player_turn_error_handling (p1 p2 d1 d2 : Card) (deck : List Card)
    (rest : List (Option (List Nat))) (hand : List Card) (d : List Nat)
    (h1 : d ≠ DECISION_STAND) (h2 : d ≠ DECISION_HIT) :
    play_round (p1 :: p2 :: d1 :: d2 :: deck) (none :: rest)
      = (.loss, [⟨RESULT_NOT_OVER, p1.1, p1.2⟩, ⟨RESULT_NOT_OVER, p2.1, p2.2⟩,
                 ⟨RESULT_NOT_OVER, d1.1, d1.2⟩]) ∧
    playerTurn hand (some d :: rest) deck = playerTurn hand rest deck := by
  constructor
  · simp [play_round, playerTurn]
  · simp [playerTurn, h1, h2]

/-- Witness for `player_turn_error_handling` at concrete inputs (decision
bytes "XXXXX"). -/
theorem player_turn_error_handling_witness :
    play_round [(2, 0), (3, 1), (4, 2), (5, 3)] [none]
      = (.loss, [⟨RESULT_NOT_OVER, 2, 0⟩, ⟨RESULT_NOT_OVER, 3, 1⟩,
                 ⟨RESULT_NOT_OVER, 4, 2⟩]) ∧
    playerTurn [(2, 0), (3, 1)] [some [88, 88, 88, 88, 88]] []
      = playerTurn [(2, 0), (3, 1)] [] [] :=
  player_turn_error_handling (2, 0) (3, 1) (4, 2) (5, 3) [] []
    [(2, 0), (3, 1)] [88, 88, 88, 88, 88] (by decide) (by decide)

/-- C4.  The claim says a round resolved after the dealer's turn compares
the final hand values (dealer over 21 wins for the player, otherwise
higher value wins, equal ties).  The code compares its unadjusted totals
instead: the player who stands on Ace-Ace (hand value 12) against a dealer
standing on 19 is declared the WINNER, because the server counts the
player's hand as 22 and 22 > 19 — the claimed comparison (12 vs 19, dealer
at most 21) yields a loss. -/
theorem resolution_uses_unadjusted_values :
    play_round [(1, 3), (1, 0), (10, 2), (9, 0)] [some DECISION_STAND]
      = (.win, [⟨0, 1, 3⟩, ⟨0, 1, 0⟩, ⟨0, 10, 2⟩, ⟨0, 9, 0⟩, ⟨3, 0, 0⟩]) ∧
    BlackjackClient.calculate_hand_value [(1, 3), (1, 0)] = 12 ∧
    BlackjackClient.calculate_hand_value [(10, 2), (9, 0)] = 19 ∧
    specOutcome 12 19 = .loss ∧
    BlackjackGame.calculate_hand_value [(1, 3), (1, 0)] = 22 := by decide

/-- C5.  The claim says the dealer draws exactly while its hand value is
below 17.  With the dealer holding Ace-Ace — hand value 12, a soft 12 —
the server computes 22 (no ace adjustment), so it draws nothing even
though a card is available, and the round even resolves as a dealer bust:
the player standing on 19 wins against a dealer that never finished
drawing. -/
theorem dealer_stands_on_soft_twelve :
    play_round [(10, 0), (9, 1), (1, 0), (1, 1), (10, 2)] [some DECISION_STAND]
      = (.win, [⟨0, 10, 0⟩, ⟨0, 9, 1⟩, ⟨0, 1, 0⟩, ⟨0, 1, 1⟩, ⟨3, 0, 0⟩]) ∧
    dealerTurn [(1, 0), (1, 1)] [(10, 2)] = ([(1, 0), (1, 1)], [], [(10, 2)]) ∧
    BlackjackClient.calculate_hand_value [(1, 0), (1, 1)] = 12 := by decide

-- ============================================================================
-- Codec lemmas
-- ============================================================================

theorem pad_name_length (name : List Nat) : (pad_name name).length = 32 := by
  unfold pad_name NAME_SIZE
  split
  · simp
    omega
  · simp
    omega

theorem rstripZeros_eq_rdropWhile (l : List Nat) :
    rstripZeros l = List.rdropWhile (fun b => decide (b = 0)) l := rfl

theorem rstripZeros_append_zeros (l : List Nat) (k : Nat) :
    rstripZeros (l ++ List.replicate k 0) = rstripZeros l := by
  induction k with
  | zero => simp
  | succ n ih =>
    rw [List.replicate_succ', ← List.append_assoc, rstripZeros_eq_rdropWhile,
      List.rdropWhile_concat_pos _ _ _ (by simp), ← rstripZeros_eq_rdropWhile, ih]

theorem rstripZeros_no_trailing (l : List Nat) (h : l.getLast? ≠ some 0) :
    rstripZeros l = l := by
  rw [rstripZeros_eq_rdropWhile]
  refine List.rdropWhile_eq_self_iff.mpr fun hl => ?_
  simp only [decide_eq_true_eq]
  intro h0
  exact h (by rw [List.getLast?_eq_getLast l hl, h0])

theorem unpad_pad (name : List Nat) :
    unpad_name (pad_name name) = rstripZeros (name.take 32) := by
  unfold unpad_name pad_name NAME_SIZE
  split
  · rfl
  · rw [rstripZeros_append_zeros]
    congr 1
    exact (List.take_of_length_le (by omega)).symm

theorem parse_create_offer (port : Nat) (name : List Nat) (h : port < 65536) :
    (create_offer_message port name).bind parse_offer_message
      = some (port, rstripZeros (name.take 32)) := by
  have hlen : (pad_name name).length = 32 := pad_name_length name
  have htake : (pad_name name).take 32 = pad_name name :=
    List.take_of_length_le (by omega)
  rw [create_offer_message, if_pos h, Option.some_bind]
  simp only [MAGIC_BYTES, packU16, MSG_TYPE_OFFER, List.cons_append, List.nil_append]
  rw [parse_offer_message]
  simp only [List.length_cons, hlen, List.getD_cons_zero, List.getD_cons_succ,
    List.drop_succ_cons, List.drop_zero, htake]
  rw [if_neg (by omega), if_pos (by constructor <;> [decide; rfl])]
  have hread : readU16 (port / 256) (port % 256) = port := by unfold readU16; omega
  rw [unpad_pad name, hread]

theorem parse_create_request (rounds : Nat) (name : List Nat) (h : rounds < 256) :
    (create_request_message rounds name).bind parse_request_message
      = some (rounds, rstripZeros (name.take 32)) := by
  have hlen : (pad_name name).length = 32 := pad_name_length name
  have htake : (pad_name name).take 32 = pad_name name :=
    List.take_of_length_le (by omega)
  rw [create_request_message, if_pos h, Option.some_bind]
  simp only [MAGIC_BYTES, MSG_TYPE_REQUEST, List.cons_append, List.nil_append]
  rw [parse_request_message]
  simp only [List.length_cons, hlen, List.getD_cons_zero, List.getD_cons_succ,
    List.drop_succ_cons, List.drop_zero, htake]
  rw [if_neg (by omega), if_pos (by constructor <;> [decide; rfl])]
  rw [unpad_pad name]

theorem parse_create_client (decision : List Nat) :
    parse_client_payload (create_client_payload decision)
      = some (rstripZeros (decision.take 5)) := by
  have hlen : (decision.take 5).length = min 5 decision.length := List.length_take 5 decision
  rw [create_client_payload]
  simp only [MAGIC_BYTES, MSG_TYPE_PAYLOAD, List.cons_append, List.nil_append]
  rw [parse_client_payload]
  simp only [List.length_cons, List.length_append, List.length_replicate,
    List.getD_cons_zero, List.getD_cons_succ, List.drop_succ_cons, List.drop_zero]
  rw [if_neg (by omega), if_pos (by constructor <;> [decide; rfl])]
  rw [List.take_of_length_le (by simp), rstripZeros_append_zeros]

theorem parse_create_server (result rank suit : Nat)
    (hres : result < 256) (hrank : rank < 65536) (hsuit : suit < 256) :
    (create_server_payload result rank suit).bind parse_server_payload
      = some (result, rank, suit) := by
  rw [create_server_payload, if_pos ⟨hres, hrank, hsuit⟩, Option.some_bind]
  simp only [MAGIC_BYTES, packU16, MSG_TYPE_PAYLOAD, List.cons_append, List.nil_append]
  rw [parse_server_payload]
  simp only [List.length_cons, List.getD_cons_zero, List.getD_cons_succ]
  rw [if_neg (by simp), if_pos (by constructor <;> [decide; rfl])]
  have hread : readU16 (rank / 256) (rank % 256) = rank := by unfold readU16; omega
  rw [hread]

-- ============================================================================
-- Claims C6, C7, C10: the wire codec
-- ============================================================================

/-- C6, counterexample to the claim as stated.  The claim asserts
`parse_offer_message (create_offer_message port name) = (port, name)` for
every name whose UTF-8 encoding is at most 32 bytes; the 2-byte name
`"a\x00"` ([97, 0]) is such a name, yet decoding strips its trailing zero
byte along with the padding and returns `"a"`. -/
theorem codec_trailing_zero_name_cex :
    (create_offer_message 5000 [97, 0]).bind parse_offer_message
      = some (5000, [97]) ∧ ([97] : List Nat) ≠ [97, 0] := by decide

/-- C6 as amended: decoding an encoded message returns the original fields
for every valid field combination whose name does not end in a zero byte —
ports up to 65535, round counts up to 255, names of up to (and exactly) 32
encoded bytes, interior zero bytes included, the two 5-byte decisions, and
every (result, rank, suit) triple that fits its field widths; a name
longer than 32 bytes decodes to its first 32 encoded bytes with only
trailing zero bytes stripped. -/
theorem codec_roundtrip (port rounds : Nat) (name dec : List Nat)
    (result rank suit : Nat)
    (hport : port < 65536) (hrounds : rounds < 256)
    (hname : name.length ≤ 32) (hlast : name.getLast? ≠ some 0)
    (hdec : dec.length = 5) (hdlast : dec.getLast? ≠ some 0)
    (hres : result < 256) (hrank : rank < 65536) (hsuit : suit < 256) :
    (create_offer_message port name).bind parse_offer_message = some (port, name) ∧
    (create_request_message rounds name).bind parse_request_message
      = some (rounds, name) ∧
    parse_client_payload (create_client_payload dec) = some dec ∧
    (create_server_payload result rank suit).bind parse_server_payload
      = some (result, rank, suit) ∧
    ∀ long : List Nat, 32 < long.length →
      (create_offer_message port long).bind parse_offer_message
        = some (port, rstripZeros (long.take 32)) := by
  have hfix : rstripZeros (name.take 32) = name := by
    rw [List.take_of_length_le hname, rstripZeros_no_trailing name hlast]
  have hdfix : rstripZeros (dec.take 5) = dec := by
    rw [List.take_of_length_le (by omega), rstripZeros_no_trailing dec hdlast]
  refine ⟨?_, ?_, ?_, ?_, ?_⟩
  · rw [parse_create_offer port name hport, hfix]
  · rw [parse_create_request rounds name hrounds, hfix]
  · rw [parse_create_client dec, hdfix]
  · exact parse_create_server result rank suit hres hrank hsuit
  · intro long _
    exact parse_create_offer port long hport

/-- Witness for `codec_roundtrip`: port 12345, 5 rounds, the 3-byte name
"a\x00b" (interior zero byte preserved), the decision "Hittt", the card
(result=0, rank=1, suit=3), and a 33-byte name that gets truncated. -/
theorem codec_roundtrip_witness :
    (create_offer_message 12345 [97, 0, 98]).bind parse_offer_message
      = some (12345, [97, 0, 98]) ∧
    (create_request_message 5 [97, 0, 98]).bind parse_request_message
      = some (5, [97, 0, 98]) ∧
    parse_client_payload (create_client_payload DECISION_HIT) = some DECISION_HIT ∧
    (create_server_payload 0 1 3).bind parse_server_payload = some (0, 1, 3) ∧
    (create_offer_message 12345 (List.replicate 33 7)).bind parse_offer_message
      = some (12345, rstripZeros ((List.replicate 33 7).take 32)) := by
  have h := codec_roundtrip 12345 5 [97, 0, 98] DECISION_HIT 0 1 3
    (by decide) (by decide) (by decide) (by decide) (by decide) (by decide)
    (by decide) (by decide) (by decide)
  exact ⟨h.1, h.2.1, h.2.2.1, h.2.2.2.1, h.2.2.2.2 (List.replicate 33 7) (by decide)⟩

/-- C7.  Every parse function returns the invalid marker `none` — and, being
a total function into `Option`, never escapes with an exception — whenever
the buffer is shorter than the fixed message size, the magic constant is
wrong, or the type tag is wrong. -/
theorem parse_rejects_invalid (data : List Nat) :
    (data.length < 39 → parse_offer_message data = none) ∧
    (data.length < 38 → parse_request_message data = none) ∧
    (data.length < 10 → parse_client_payload data = none) ∧
    (data.length < 9 → parse_server_payload data = none) ∧
    (readU32 (data.getD 0 0) (data.getD 1 0) (data.getD 2 0) (data.getD 3 0)
        ≠ MAGIC_COOKIE →
      parse_offer_message data = none ∧ parse_request_message data = none ∧
      parse_client_payload data = none ∧ parse_server_payload data = none) ∧
    (data.getD 4 0 ≠ MSG_TYPE_OFFER → parse_offer_message data = none) ∧
    (data.getD 4 0 ≠ MSG_TYPE_REQUEST → parse_request_message data = none) ∧
    (data.getD 4 0 ≠ MSG_TYPE_PAYLOAD →
      parse_client_payload data = none ∧ parse_server_payload data = none) := by
  unfold parse_offer_message parse_request_message parse_client_payload
    parse_server_payload
  refine ⟨fun h => by rw [if_pos h], fun h => by rw [if_pos h],
    fun h => by rw [if_pos h], fun h => by rw [if_pos h],
    fun h => ⟨?_, ?_, ?_, ?_⟩, fun h => ?_, fun h => ?_, fun h => ⟨?_, ?_⟩⟩ <;>
  · split
    · rfl
    · rw [if_neg (by tauto)]

/-- Witness for `parse_rejects_invalid`: the empty buffer, an 8-byte buffer
given to the 9-byte ServerCard format, a 40-byte all-zero buffer (wrong
magic), and a correct-magic buffer with the unused type tag 9. -/
theorem parse_rejects_invalid_witness :
    parse_offer_message [] = none ∧
    parse_server_payload (List.replicate 8 0) = none ∧
    parse_offer_message (List.replicate 40 0) = none ∧
    parse_client_payload (MAGIC_BYTES ++ [9] ++ List.replicate 35 0) = none := by
  refine ⟨(parse_rejects_invalid []).1 (by decide),
    (parse_rejects_invalid (List.replicate 8 0)).2.2.2.1 (by decide),
    ((parse_rejects_invalid (List.replicate 40 0)).2.2.2.2.1 (by decide)).1,
    ((parse_rejects_invalid (MAGIC_BYTES ++ [9] ++ List.replicate 35 0)).2.2.2.2.2.2.2
      (by decide)).1⟩

theorem parse_offer_append (data extra : List Nat) (h : 39 ≤ data.length) :
    parse_offer_message (data ++ extra) = parse_offer_message data := by
  unfold parse_offer_message
  have hg : ∀ i, i < 39 → (data ++ extra).getD i 0 = data.getD i 0 := fun i hi =>
    List.getD_append data extra 0 i (by omega)
  have hdrop : ((data ++ extra).drop 7).take 32 = (data.drop 7).take 32 := by
    rw [List.drop_append_of_le_length (by omega),
      List.take_append_of_le_length (by simp; omega)]
  rw [hg 0 (by omega), hg 1 (by omega), hg 2 (by omega), hg 3 (by omega),
    hg 4 (by omega), hg 5 (by omega), hg 6 (by omega), hdrop, List.length_append,
    if_neg (show ¬data.length + extra.length < 39 by omega),
    if_neg (show ¬data.length < 39 by omega)]

theorem parse_request_append (data extra : List Nat) (h : 38 ≤ data.length) :
    parse_request_message (data ++ extra) = parse_request_message data := by
  unfold parse_request_message
  have hg : ∀ i, i < 38 → (data ++ extra).getD i 0 = data.getD i 0 := fun i hi =>
    List.getD_append data extra 0 i (by omega)
  have hdrop : ((data ++ extra).drop 6).take 32 = (data.drop 6).take 32 := by
    rw [List.drop_append_of_le_length (by omega),
      List.take_append_of_le_length (by simp; omega)]
  rw [hg 0 (by omega), hg 1 (by omega), hg 2 (by omega), hg 3 (by omega),
    hg 4 (by omega), hg 5 (by omega), hdrop, List.length_append,
    if_neg (show ¬data.length + extra.length < 38 by omega),
    if_neg (show ¬data.length < 38 by omega)]

theorem parse_client_append (data extra : List Nat) (h : 10 ≤ data.length) :
    parse_client_payload (data ++ extra) = parse_client_payload data := by
  unfold parse_client_payload
  have hg : ∀ i, i < 10 → (data ++ extra).getD i 0 = data.getD i 0 := fun i hi =>
    List.getD_append data extra 0 i (by omega)
  have hdrop : ((data ++ extra).drop 5).take 5 = (data.drop 5).take 5 := by
    rw [List.drop_append_of_le_length (by omega),
      List.take_append_of_le_length (by simp; omega)]
  rw [hg 0 (by omega), hg 1 (by omega), hg 2 (by omega), hg 3 (by omega),
    hg 4 (by omega), hdrop, List.length_append,
    if_neg (show ¬data.length + extra.length < 10 by omega),
    if_neg (show ¬data.length < 10 by omega)]

theorem parse_server_append (data extra : List Nat) (h : 9 ≤ data.length) :
    parse_server_payload (data ++ extra) = parse_server_payload data := by
  unfold parse_server_payload
  have hg : ∀ i, i < 9 → (data ++ extra).getD i 0 = data.getD i 0 := fun i hi =>
    List.getD_append data extra 0 i (by omega)
  rw [hg 0 (by omega), hg 1 (by omega), hg 2 (by omega), hg 3 (by omega),
    hg 4 (by omega), hg 5 (by omega), hg 6 (by omega), hg 7 (by omega),
    hg 8 (by omega), List.length_append,
    if_neg (show ¬data.length + extra.length < 9 by omega),
    if_neg (show ¬data.length < 9 by omega)]

/-- C10.  The parse functions validate nothing beyond magic, type tag and
minimum length: a buffer at least as long as the fixed size parses the
same with arbitrary trailing bytes appended; `parse_server_payload`
accepts every byte-width-valid (result, rank, suit) triple with no range
check on the decoded values; and `parse_client_payload` returns whatever
the 5-byte decision field holds (minus trailing zero bytes), not merely
`Hittt`/`Stand`. -/
theorem parse_no_field_validation :
    (∀ data extra : List Nat, 39 ≤ data.length →
      parse_offer_message (data ++ extra) = parse_offer_message data) ∧
    (∀ data extra : List Nat, 38 ≤ data.length →
      parse_request_message (data ++ extra) = parse_request_message data) ∧
    (∀ data extra : List Nat, 10 ≤ data.length →
      parse_client_payload (data ++ extra) = parse_client_payload data) ∧
    (∀ data extra : List Nat, 9 ≤ data.length →
      parse_server_payload (data ++ extra) = parse_server_payload data) ∧
    (∀ result rank suit : Nat, result < 256 → rank < 65536 → suit < 256 →
      (create_server_payload result rank suit).bind parse_server_payload
        = some (result, rank, suit)) ∧
    (∀ dec : List Nat,
      parse_client_payload (create_client_payload dec)
        = some (rstripZeros (dec.take 5))) :=
  ⟨parse_offer_append, parse_request_append, parse_client_append,
    parse_server_append,
    fun result rank suit hr hk hs => parse_create_server result rank suit hr hk hs,
    parse_create_client⟩

/-- Witness for `parse_no_field_validation`: valid messages with junk
appended parse identically; result=255/rank=9999/suit=255 (all outside
their semantic ranges) round-trip unchecked; the garbage decision "BOGUS"
is returned as-is. -/
theorem parse_no_field_validation_witness :
    parse_offer_message ((MAGIC_BYTES ++ [2, 1, 1] ++ List.replicate 32 65) ++ [7, 7])
      = parse_offer_message (MAGIC_BYTES ++ [2, 1, 1] ++ List.replicate 32 65) ∧
    parse_request_message ((MAGIC_BYTES ++ [3, 9] ++ List.replicate 32 65) ++ [7])
      = parse_request_message (MAGIC_BYTES ++ [3, 9] ++ List.replicate 32 65) ∧
    parse_client_payload ((MAGIC_BYTES ++ [4, 72, 105, 116, 116, 116]) ++ [7])
      = parse_client_payload (MAGIC_BYTES ++ [4, 72, 105, 116, 116, 116]) ∧
    parse_server_payload ((MAGIC_BYTES ++ [4, 200, 1, 5, 9]) ++ [7])
      = parse_server_payload (MAGIC_BYTES ++ [4, 200, 1, 5, 9]) ∧
    (create_server_payload 255 9999 255).bind parse_server_payload
      = some (255, 9999, 255) ∧
    parse_client_payload (create_client_payload [66, 79, 71, 85, 83])
      = some [66, 79, 71, 85, 83] := by
  have h := parse_no_field_validation
  exact ⟨h.1 _ _ (by decide), h.2.1 _ _ (by decide), h.2.2.1 _ _ (by decide),
    h.2.2.2.1 _ _ (by decide),
    h.2.2.2.2.1 255 9999 255 (by decide) (by decide) (by decide),
    (h.2.2.2.2.2 [66, 79, 71, 85, 83]).trans (by decide)⟩

-- ============================================================================
-- Claims C8, C9: the deck
-- ============================================================================

theorem fullDeck_length : fullDeck.length = 52 := by decide

theorem fullDeck_nodup : fullDeck.Nodup := by decide

/-- `Deck.draw` with its `let` unfolded. -/
theorem draw_eq (cards resetCards : List Card) :
    Deck.draw cards resetCards =
      match (if cards.isEmpty then resetCards else cards).getLast? with
      | none => (none, if cards.isEmpty then resetCards else cards)
      | some c => (some c, (if cards.isEmpty then resetCards else cards).dropLast) :=
  rfl

/-- Drawing as many times as the deck holds cards pops the whole deck, last
card first, and empties it. -/
theorem drawN_length_self (r : List Card) (s : List Card) :
    Deck.drawN r s.length s = (s.reverse.map some, []) := by
  induction s using List.reverseRecOn with
  | nil => rfl
  | append_singleton xs x ih =>
    have hlen : (xs ++ [x]).length = xs.length + 1 := by simp
    rw [hlen, Deck.drawN]
    have hdraw : Deck.draw (xs ++ [x]) r = (some x, xs) := by
      rw [draw_eq, if_neg (by simp)]
      rw [List.getLast?_concat, List.dropLast_concat]
    rw [hdraw]
    simp only [ih, List.reverse_append, List.reverse_cons, List.reverse_nil,
      List.nil_append, List.singleton_append, List.map_cons]

/-- C8.  From any post-`reset` state (an arbitrary permutation `l` of the
52-card deck), 52 successive draws return exactly the 52 distinct cards of
the full deck — each exactly once, no duplicates — leaving the deck empty,
and the 53rd draw finds the deck empty and serves from a fresh implicit
`reset` (the next shuffle `r`). -/
theorem deck_draw_cycle (l r : List Card) (hl : l.Perm fullDeck)
    (hr : r.Perm fullDeck) :
    (Deck.drawN r 52 l).1 = l.reverse.map some ∧
    l.reverse.Nodup ∧
    l.reverse.Perm fullDeck ∧
    (Deck.drawN r 52 l).2 = [] ∧
    (Deck.draw (Deck.drawN r 52 l).2 r).1 = r.getLast? ∧
    r ≠ [] := by
  have hlen : l.length = 52 := by rw [hl.length_eq, fullDeck_length]
  have hmain := drawN_length_self r l
  rw [hlen] at hmain
  have hrne : r ≠ [] := by
    intro hnil
    have := hr.length_eq
    rw [hnil, fullDeck_length] at this
    simp at this
  refine ⟨by rw [hmain], (List.nodup_reverse).mpr (hl.symm.nodup fullDeck_nodup),
    (List.reverse_perm l).trans hl, by rw [hmain], ?_, hrne⟩
  rw [hmain, draw_eq]
  have hif : (if ([] : List Card).isEmpty then r else []) = r := rfl
  rw [hif]
  cases hgl : r.getLast? <;> simp [hgl]

/-- Witness for `deck_draw_cycle` at the identity shuffle. -/
theorem deck_draw_cycle_witness :
    (Deck.drawN fullDeck 52 fullDeck).1 = fullDeck.reverse.map some ∧
    fullDeck.reverse.Nodup ∧
    fullDeck.reverse.Perm fullDeck ∧
    (Deck.drawN fullDeck 52 fullDeck).2 = [] ∧
    (Deck.draw (Deck.drawN fullDeck 52 fullDeck).2 fullDeck).1 = fullDeck.getLast? ∧
    fullDeck ≠ [] :=
  deck_draw_cycle fullDeck fullDeck (List.Perm.refl _) (List.Perm.refl _)

/-- C9.  `Deck.draw` never returns `None`: in every state — empty or not —
as long as `reset` repopulates with the 52-card deck (any permutation `r`
of it), the card list is non-empty by the time of the pop, so the `None`
fallback branch is unreachable. -/
theorem draw_never_none (s r : List Card) (hr : r.Perm fullDeck) :
    (Deck.draw s r).1.isSome := by
  have hrne : r ≠ [] := by
    intro hnil
    have := hr.length_eq
    rw [hnil, fullDeck_length] at this
    simp at this
  have hne : (if s.isEmpty then r else s) ≠ [] := by
    split
    · exact hrne
    · rename_i h
      exact fun hs => h (by rw [hs]; rfl)
  rw [draw_eq]
  obtain ⟨c, hc⟩ := Option.isSome_iff_exists.mp (List.getLast?_isSome.mpr hne)
  rw [hc]
  rfl

/-- Witness for `draw_never_none`: a draw from the empty state (forcing the
implicit reset) and from a singleton state. -/
theorem draw_never_none_witness :
    (Deck.draw [] fullDeck).1.isSome ∧ (Deck.draw [(5, 2)] fullDeck).1.isSome :=
  ⟨draw_never_none [] fullDeck (List.Perm.refl _),
    draw_never_none [(5, 2)] fullDeck (List.Perm.refl _)⟩
